import Mathlib

/-!
Verification of the geotools core (src/geotools/funcs.py, src/geotools/cli.py).

Floating-point values are modelled by exact rationals (`ℚ`); the external CRS
transform primitive (osgeo.osr) is modelled as an injected function that can
fail per point (an exception becomes `none`), and the CRS linear-unit lookup as
an optional `(name, toMeter)` pair (`none` models the lookup raising).  The
cosine used by the geographic fallback of the area estimator (math.cos ∘
math.radians) is likewise injected as a function parameter `cosDeg`.
-/

/-- The 6 GDAL geotransform coefficients, in tuple order:
`geotransform[0] = originX`, `[1] = pixelWidth`, `[2] = rowSkew`,
`[3] = originY`, `[4] = colSkew`, `[5] = pixelHeight`. -/
structure GeoTransform where
  originX : ℚ
  pixelWidth : ℚ
  rowSkew : ℚ
  originY : ℚ
  colSkew : ℚ
  pixelHeight : ℚ
deriving DecidableEq

/-- Pixel-to-projected affine map, as computed inline throughout funcs.py
(e.g. lines 275-276): `x = gt[0] + px*gt[1] + py*gt[2]`,
`y = gt[3] + px*gt[4] + py*gt[5]`. -/
def pixel_to_projected (g : GeoTransform) (px py : ℚ) : ℚ × ℚ :=
  (g.originX + px * g.pixelWidth + py * g.rowSkew,
   g.originY + px * g.colSkew + py * g.pixelHeight)

/-- The new geotransform computed by `cutiff` (funcs.py lines 500-508):
`(gt[0] + xoff*gt[1], gt[1], gt[2], gt[3] + yoff*gt[5], gt[4], gt[5])`. -/
def cutiff_new_geotransform (g : GeoTransform) (xoff yoff : ℤ) : GeoTransform :=
  { originX := g.originX + (xoff : ℚ) * g.pixelWidth
  , pixelWidth := g.pixelWidth
  , rowSkew := g.rowSkew
  , originY := g.originY + (yoff : ℚ) * g.pixelHeight
  , colSkew := g.colSkew
  , pixelHeight := g.pixelHeight }

/-- `shiftOrigin` exactly as the spec words it (origin advanced by the pixel
size term plus the skew term), stated for comparison with the source's
`cutiff_new_geotransform`. -/
def shiftOrigin_spec (g : GeoTransform) (xoff yoff : ℤ) : GeoTransform :=
  { originX := g.originX + (xoff : ℚ) * g.pixelWidth + (yoff : ℚ) * g.rowSkew
  , pixelWidth := g.pixelWidth
  , rowSkew := g.rowSkew
  , originY := g.originY + (yoff : ℚ) * g.pixelHeight + (xoff : ℚ) * g.colSkew
  , colSkew := g.colSkew
  , pixelHeight := g.pixelHeight }

/-- Outcome of the crop-window pre-validation and crop execution in
`process_tiff_cropping` (funcs.py lines 991-1022). `outputPathSet` records
whether `result_path` was set (i.e. whether `cutiff` was executed). -/
structure ProcessCropResult where
  valid : Bool
  errors : List String
  warnings : List String
  outputPathSet : Bool
deriving DecidableEq

/-- The validation and crop-gating logic of `process_tiff_cropping`
(funcs.py lines 991-1022): each axis violation appends an error and clears
`valid`; `cutiff` is executed only when `valid` survived. -/
def process_tiff_cropping (rx ry xoff yoff xsize ysize : ℤ) : ProcessCropResult :=
  let xbad := decide (xoff + xsize > rx)
  let ybad := decide (yoff + ysize > ry)
  { valid := !xbad && !ybad
  , errors :=
      (if xbad then ["X轴裁切范围超出图像边界"] else []) ++
      (if ybad then ["Y轴裁切范围超出图像边界"] else [])
  , warnings := []
  , outputPathSet := !xbad && !ybad }

/-- Outcome of one run of the `cutiff_cli` command body (cli.py lines 594-619)
for an existing input raster of size `rx × ry`. -/
structure CliCropRun where
  warned : Bool
  cropExecuted : Bool
deriving DecidableEq

/-- The bounds check and crop call of `cutiff_cli` (cli.py lines 594-619):
an out-of-range window prints a warning, and `cutiff` is then called
unconditionally (line 619). -/
def cutiff_cli_main (rx ry xoff yoff xsize ysize : ℤ) : CliCropRun :=
  { warned := decide (xoff + xsize > rx) || decide (yoff + ysize > ry)
  , cropExecuted := true }

/-- Geographic bounds dictionary (west/east/south/north), funcs.py lines 286-291. -/
structure GeoBounds where
  west : ℚ
  east : ℚ
  south : ℚ
  north : ℚ
deriving DecidableEq

/-- Geographic center dictionary (longitude/latitude), funcs.py line 302. -/
structure GeoCenter where
  longitude : ℚ
  latitude : ℚ
deriving DecidableEq

/-- Return value of `transform_projected_to_geographic` (funcs.py 308-311). -/
structure GeoResult where
  geographic_bounds : Option GeoBounds
  geographic_center : Option GeoCenter
deriving DecidableEq

/-- The four pixel-space corners used at funcs.py lines 264-269. -/
def corner_points (w h : ℚ) : List (ℚ × ℚ) :=
  [(0, 0), (w, 0), (w, h), (0, h)]

/-- The corner loop of funcs.py lines 272-280: map each pixel point through
the affine model and then through the CRS transform; the first point at which
`TransformPoint` raises (modelled by `none`) aborts the whole loop. -/
def transform_points (f : ℚ → ℚ → Option (ℚ × ℚ)) (g : GeoTransform) :
    List (ℚ × ℚ) → Option (List (ℚ × ℚ))
  | [] => some []
  | p :: ps =>
    match f (pixel_to_projected g p.1 p.2).1 (pixel_to_projected g p.1 p.2).2 with
    | none => none
    | some q =>
      match transform_points f g ps with
      | none => none
      | some qs => some (q :: qs)

/-- Python `min` of a nonempty list. -/
def list_min : List ℚ → ℚ
  | [] => 0
  | a :: l => l.foldl min a

/-- Python `max` of a nonempty list. -/
def list_max : List ℚ → ℚ
  | [] => 0
  | a :: l => l.foldl max a

/-- The bounds dictionary built at funcs.py lines 282-291 from the list of
reprojected corners. -/
def bounds_of (cg : List (ℚ × ℚ)) : GeoBounds :=
  { west := list_min (cg.map Prod.fst)
  , east := list_max (cg.map Prod.fst)
  , south := list_min (cg.map Prod.snd)
  , north := list_max (cg.map Prod.snd) }

/-- `transform_projected_to_geographic` (funcs.py lines 230-311).  The injected
CRS primitive is `tf`: `none` models a failure of transform construction
(lines 254-261); per-point failures are modelled inside `f`.  The Python
try/except assigns `geographic_bounds` before computing the center (lines
286-302), so a failure at the center point alone leaves the bounds assigned. -/
def transform_projected_to_geographic (tf : Option (ℚ → ℚ → Option (ℚ × ℚ)))
    (g : GeoTransform) (width height : ℚ) : GeoResult :=
  match tf with
  | none => { geographic_bounds := none, geographic_center := none }
  | some f =>
    match transform_points f g (corner_points width height) with
    | none => { geographic_bounds := none, geographic_center := none }
    | some corners_geo =>
      match f (pixel_to_projected g (width / 2) (height / 2)).1
            (pixel_to_projected g (width / 2) (height / 2)).2 with
      | none => { geographic_bounds := some (bounds_of corners_geo)
                , geographic_center := none }
      | some q => { geographic_bounds := some (bounds_of corners_geo)
                  , geographic_center := some { longitude := q.1, latitude := q.2 } }

/-- numpy default relative tolerance. -/
def np_rtol : ℚ := 1 / 100000

/-- numpy default absolute tolerance. -/
def np_atol : ℚ := 1 / 100000000

/-- `np.isclose(a, b)` with default tolerances: `|a - b| <= atol + rtol*|b|`. -/
def np_isclose (a b : ℚ) : Bool :=
  decide (|a - b| ≤ np_atol + np_rtol * |b|)

/-- `np.any(arr)`: some element is truthy (nonzero). -/
def np_any (l : List ℚ) : Bool :=
  l.any fun x => decide (x ≠ 0)

/-- `np.allclose(arr, arr.flat[0])`: every element is within tolerance of the
first element (only evaluated on nonempty arrays in the source, where `np.any`
already returned true). -/
def np_allclose_first (l : List ℚ) : Bool :=
  l.all fun x => np_isclose x (l.headD 0)

/-- `np.clip(x, lo, hi) = min(max(x, lo), hi)`. -/
def np_clip (x lo hi : ℚ) : ℚ :=
  min (max x lo) hi

/-- `np.percentile(l, q)` with the default linear-interpolation method:
sort ascending, take the virtual index `q/100 * (n-1)` and interpolate
between the two neighbouring order statistics. -/
def percentile (l : List ℚ) (q : ℚ) : ℚ :=
  let s := List.insertionSort (· ≤ ·) l
  let pos := q / 100 * ((l.length : ℚ) - 1)
  let i := (⌊pos⌋).toNat
  let frac := pos - (i : ℚ)
  match s[i]?, s[i + 1]? with
  | some a, some b => a + frac * (b - a)
  | some a, none => a
  | _, _ => 0

/-- Truncation toward zero (C float-to-integer cast semantics). -/
def rat_trunc (q : ℚ) : ℤ :=
  if 0 ≤ q then ⌊q⌋ else ⌈q⌉

/-- Wrap an integer into the uint8 range, modelling the numpy uint8 cast. -/
def uint8_of_int (v : ℤ) : ℤ :=
  v % 256

/-- `gray_process` (funcs.py lines 383-421): constant-array guard via
`np.any`/`np.allclose`, percentile spread check via `np.isclose`, linear
stretch with `np.clip` and a final cast to uint8 (truncation toward zero). -/
def gray_process (gray : List ℚ) (truncated_value : ℚ) (max_out min_out : ℤ) : List ℤ :=
  if !np_any gray || np_allclose_first gray then
    gray.map fun _ => uint8_of_int min_out
  else if np_isclose (percentile gray (100 - truncated_value)) (percentile gray truncated_value) then
    gray.map fun _ => uint8_of_int (Int.fdiv (max_out + min_out) 2)
  else
    gray.map fun v => uint8_of_int (rat_trunc (np_clip
      ((v - percentile gray truncated_value) /
          (percentile gray (100 - truncated_value) - percentile gray truncated_value) *
          ((max_out : ℚ) - (min_out : ℚ)) + (min_out : ℚ))
      (min_out : ℚ) (max_out : ℚ)))

/-- Return dictionary of `calculate_projected_distance_and_area`
(funcs.py lines 726-815); keys absent on a given path are `none`. -/
structure SpanArea where
  x_span_km : Option ℚ
  y_span_km : Option ℚ
  area_km2 : Option ℚ
  unit_name : String
  unit_to_meter : Option ℚ
  x_span_original : Option ℚ
  y_span_original : Option ℚ
  area_original : Option ℚ
deriving DecidableEq

/-- `calculate_projected_distance_and_area` (funcs.py lines 726-815).
`cosDeg` injects `math.cos(math.radians(·))`; `unit_lookup = none` models the
CRS linear-unit lookup raising; `has_projection` is the truthiness of the
projection WKT string. -/
def calculate_projected_distance_and_area (cosDeg : ℚ → ℚ)
    (geotransform : Option GeoTransform) (has_projection : Bool)
    (unit_lookup : Option (String × ℚ)) (geographic_bounds : Option GeoBounds)
    (width height : ℚ) : SpanArea :=
  match geotransform, has_projection with
  | some g, true =>
    let min_x := g.originX
    let max_x := min_x + width * g.pixelWidth
    let min_y := g.originY + height * g.pixelHeight
    let max_y := g.originY
    let x_span := |max_x - min_x|
    let y_span := |max_y - min_y|
    let area := x_span * y_span
    match unit_lookup with
    | some (unit_name, unit_to_meter) =>
      { x_span_km := some (x_span * unit_to_meter / 1000)
      , y_span_km := some (y_span * unit_to_meter / 1000)
      , area_km2 := some (area * unit_to_meter * unit_to_meter / 1000000)
      , unit_name := if unit_name = "" then "未知单位" else unit_name
      , unit_to_meter := some unit_to_meter
      , x_span_original := some x_span
      , y_span_original := some y_span
      , area_original := some area }
    | none =>
      match geographic_bounds with
      | some b =>
        let lat_center := (b.north + b.south) / 2
        let lon_span := |b.east - b.west|
        let lat_span := |b.north - b.south|
        let cos_lat := cosDeg lat_center
        let xkm := lon_span * 111 * cos_lat
        let ykm := lat_span * 111
        { x_span_km := some xkm
        , y_span_km := some ykm
        , area_km2 := some (xkm * ykm)
        , unit_name := "度 (近似计算)"
        , unit_to_meter := none
        , x_span_original := some x_span
        , y_span_original := some y_span
        , area_original := some area }
      | none =>
        { x_span_km := none, y_span_km := none, area_km2 := none
        , unit_name := "未知单位", unit_to_meter := none
        , x_span_original := none, y_span_original := none, area_original := none }
  | _, _ =>
    { x_span_km := none, y_span_km := none, area_km2 := none
    , unit_name := "未知单位", unit_to_meter := none
    , x_span_original := none, y_span_original := none, area_original := none }

/-! ### Helper lemmas -/

theorem transform_points_length (f : ℚ → ℚ → Option (ℚ × ℚ)) (g : GeoTransform) :
    ∀ ps qs, transform_points f g ps = some qs → qs.length = ps.length := by
  intro ps
  induction ps with
  | nil => intro qs h; simp [transform_points] at h; simp [← h]
  | cons p ps ih =>
    intro qs h
    simp only [transform_points] at h
    cases hf : f (pixel_to_projected g p.1 p.2).1 (pixel_to_projected g p.1 p.2).2 with
    | none => rw [hf] at h; simp at h
    | some q =>
      rw [hf] at h
      cases ht : transform_points f g ps with
      | none => rw [ht] at h; simp at h
      | some qs' =>
        rw [ht] at h
        simp at h
        simp [← h, ih qs' ht]

theorem foldl_min_le_foldl_max (l : List ℚ) :
    ∀ a b : ℚ, a ≤ b → l.foldl min a ≤ l.foldl max b := by
  induction l with
  | nil => intro a b h; simpa using h
  | cons c l ih =>
    intro a b h
    simp only [List.foldl_cons]
    exact ih _ _ (le_trans (min_le_right a c) (le_max_right b c))

theorem list_min_le_list_max (l : List ℚ) (h : l ≠ []) : list_min l ≤ list_max l := by
  cases l with
  | nil => exact absurd rfl h
  | cons a l => exact foldl_min_le_foldl_max l a a le_rfl

theorem uint8_of_int_eq (v : ℤ) (h0 : 0 ≤ v) (h1 : v < 256) : uint8_of_int v = v :=
  Int.emod_eq_of_lt h0 h1

/-! ### C1: crop georeference vs. shiftOrigin -/

/-- C1 counterexample: with nonzero skew coefficients, the georeference
produced by `cutiff` differs from the spec's `shiftOrigin` (the skew terms
are not applied by the source), so the claimed equality fails at
geotransform `(0,1,1,0,1,1)` with offsets `(1,1)`. -/
theorem cutiff_skew_counterexample :
    cutiff_new_geotransform ⟨0, 1, 1, 0, 1, 1⟩ 1 1 ≠
      shiftOrigin_spec ⟨0, 1, 1, 0, 1, 1⟩ 1 1 := by
  simp only [cutiff_new_geotransform, shiftOrigin_spec, ne_eq, GeoTransform.mk.injEq]
  norm_num

/-- C1 (amended): the georeference produced by `cutiff` advances `originX` by
`xOffset*pixelWidth` only and `originY` by `yOffset*pixelHeight` only — the
skew terms are not applied — while `pixelWidth`, `pixelHeight`, `rowSkew`
and `colSkew` are preserved unchanged; it coincides with the spec's
`shiftOrigin` exactly when both skew contributions vanish. -/
theorem cutiff_georeference_shift (g : GeoTransform) (xoff yoff : ℤ) :
    (cutiff_new_geotransform g xoff yoff).pixelWidth = g.pixelWidth ∧
    (cutiff_new_geotransform g xoff yoff).rowSkew = g.rowSkew ∧
    (cutiff_new_geotransform g xoff yoff).colSkew = g.colSkew ∧
    (cutiff_new_geotransform g xoff yoff).pixelHeight = g.pixelHeight ∧
    (cutiff_new_geotransform g xoff yoff).originX = g.originX + (xoff : ℚ) * g.pixelWidth ∧
    (cutiff_new_geotransform g xoff yoff).originY = g.originY + (yoff : ℚ) * g.pixelHeight ∧
    (cutiff_new_geotransform g xoff yoff = shiftOrigin_spec g xoff yoff ↔
      (yoff : ℚ) * g.rowSkew = 0 ∧ (xoff : ℚ) * g.colSkew = 0) := by
  refine ⟨rfl, rfl, rfl, rfl, rfl, rfl, ?_⟩
  simp only [cutiff_new_geotransform, shiftOrigin_spec, GeoTransform.mk.injEq,
    self_eq_add_right, and_true, true_and]

/-! ### C2: out-of-range crop windows in the two pipelines -/

/-- C2 counterexample: for the out-of-range request `(xoff,yoff,xsize,ysize) =
(5,5,10,10)` on a `10×10` raster, `process_tiff_cropping` does **not** execute
the crop — the window is turned into a validation failure (`valid = false`,
errors recorded, `result_path` left `None`), contradicting the claim that the
crop still executes and the violation is only a warning. -/
theorem process_tiff_cropping_blocks_out_of_range :
    (5 + 10 > (10 : ℤ)) ∧
    (process_tiff_cropping 10 10 5 5 10 10).outputPathSet = false ∧
    (process_tiff_cropping 10 10 5 5 10 10).valid = false ∧
    (process_tiff_cropping 10 10 5 5 10 10).warnings = [] ∧
    (process_tiff_cropping 10 10 5 5 10 10).errors ≠ [] := by
  refine ⟨by norm_num, ?_, ?_, ?_, ?_⟩ <;> simp [process_tiff_cropping]

/-- C2 (amended): the `cutiff_cli` pipeline reports an out-of-range window
with a warning and still executes the crop unconditionally, whereas the
`process_tiff_cropping` pipeline records the violation as validation errors
and executes the crop only when the window lies within the raster extent
(otherwise the output path stays `None`). -/
theorem crop_pipelines_bounds_handling (rx ry xoff yoff xsize ysize : ℤ) :
    (cutiff_cli_main rx ry xoff yoff xsize ysize).cropExecuted = true ∧
    ((cutiff_cli_main rx ry xoff yoff xsize ysize).warned = true ↔
      (xoff + xsize > rx ∨ yoff + ysize > ry)) ∧
    ((process_tiff_cropping rx ry xoff yoff xsize ysize).outputPathSet = true ↔
      ¬(xoff + xsize > rx ∨ yoff + ysize > ry)) ∧
    (process_tiff_cropping rx ry xoff yoff xsize ysize).valid =
      (process_tiff_cropping rx ry xoff yoff xsize ysize).outputPathSet := by
  refine ⟨rfl, ?_, ?_, rfl⟩
  · simp [cutiff_cli_main]
  · simp [process_tiff_cropping, not_or]

/-! ### C3: failure policy of the reprojector -/

/-- A CRS point transform that succeeds everywhere except at the projected
point `(1,1)` — the image of the pixel-space centroid below. -/
def center_failing_tf : ℚ → ℚ → Option (ℚ × ℚ) :=
  fun x y => if x = 1 ∧ y = 1 then none else some (x, y)

/-- C3: the claim (and the function's own docstring, funcs.py lines 244-248)
says any exception during the transforms leaves **both** outputs `None`; but
when only the center-point transform fails (all four corner transforms
succeed), the source returns a partial result: `geographic_bounds` is already
assigned and only `geographic_center` is `None`.  Evaluated on geotransform
`(0,1,0,0,0,1)`, width = height = 2, with a transform failing only at `(1,1)`. -/
theorem transform_center_failure_partial_result :
    transform_projected_to_geographic (some center_failing_tf) ⟨0, 1, 0, 0, 0, 1⟩ 2 2 =
      { geographic_bounds := some ⟨0, 2, 0, 2⟩, geographic_center := none } := by
  have h1 : ((2 : ℚ) / 2) = 1 := by norm_num
  simp only [transform_projected_to_geographic, transform_points, corner_points,
    pixel_to_projected, center_failing_tf, bounds_of, list_min, list_max, h1]
  norm_num [GeoResult.mk.injEq, GeoBounds.mk.injEq, min_def, max_def]

/-! ### C9: bounds are the min/max reduction over the four corners -/

/-- C9: whenever reprojection succeeds in producing bounds, those bounds are
the min/max reduction over the four reprojected image corners
`(0,0), (width,0), (width,height), (0,height)`, and consequently satisfy
`west ≤ east` and `south ≤ north`. -/
theorem reprojection_bounds_minmax (f : ℚ → ℚ → Option (ℚ × ℚ)) (g : GeoTransform)
    (w h : ℚ) (b : GeoBounds)
    (hb : (transform_projected_to_geographic (some f) g w h).geographic_bounds = some b) :
    (∃ cg, transform_points f g (corner_points w h) = some cg ∧ cg.length = 4 ∧
       b = bounds_of cg) ∧
    b.west ≤ b.east ∧ b.south ≤ b.north := by
  simp only [transform_projected_to_geographic] at hb
  cases hcg : transform_points f g (corner_points w h) with
  | none => rw [hcg] at hb; simp at hb
  | some cg =>
    rw [hcg] at hb
    have hlen : cg.length = 4 := by
      simpa [corner_points] using transform_points_length f g (corner_points w h) cg hcg
    have hbc : b = bounds_of cg := by
      cases hc : f (pixel_to_projected g (w / 2) (h / 2)).1
          (pixel_to_projected g (w / 2) (h / 2)).2 with
      | none => rw [hc] at hb; simpa using hb.symm
      | some q => rw [hc] at hb; simpa using hb.symm
    have hne : cg ≠ [] := by
      intro hnil; rw [hnil] at hlen; simp at hlen
    refine ⟨⟨cg, rfl, hlen, hbc⟩, ?_, ?_⟩ <;> subst hbc
    · exact list_min_le_list_max _ (by simpa using hne)
    · exact list_min_le_list_max _ (by simpa using hne)

/-- C9 witness: the identity transform on geotransform `(0,1,0,0,0,1)` with a
`2×2` raster succeeds and yields bounds `west 0, east 2, south 0, north 2`. -/
theorem reprojection_bounds_minmax_witness :
    (transform_projected_to_geographic (some fun x y => some (x, y))
        ⟨0, 1, 0, 0, 0, 1⟩ 2 2).geographic_bounds = some ⟨0, 2, 0, 2⟩ ∧
    (0 : ℚ) ≤ 2 ∧ (0 : ℚ) ≤ 2 := by
  have hb : (transform_projected_to_geographic (some fun x y => some (x, y))
      ⟨0, 1, 0, 0, 0, 1⟩ 2 2).geographic_bounds = some ⟨0, 2, 0, 2⟩ := by
    simp only [transform_projected_to_geographic, transform_points, corner_points,
      pixel_to_projected, bounds_of, list_min, list_max]
    norm_num [GeoBounds.mk.injEq, min_def, max_def]
  exact ⟨hb, (reprojection_bounds_minmax _ _ 2 2 ⟨0, 2, 0, 2⟩ hb).2⟩

/-! ### C10: center is the transform of the pixel-space centroid -/

/-- C10: whenever reprojection succeeds in producing a center, that center is
exactly the CRS transform of the pixel-space centroid `(width/2, height/2)`
mapped through the affine model — a formula in which the four corner points do
not occur, so the center does not depend on the corners or their ordering. -/
theorem reprojection_center_centroid (f : ℚ → ℚ → Option (ℚ × ℚ)) (g : GeoTransform)
    (w h : ℚ) (c : GeoCenter)
    (hc : (transform_projected_to_geographic (some f) g w h).geographic_center = some c) :
    f (pixel_to_projected g (w / 2) (h / 2)).1 (pixel_to_projected g (w / 2) (h / 2)).2 =
      some (c.longitude, c.latitude) := by
  simp only [transform_projected_to_geographic] at hc
  cases hcg : transform_points f g (corner_points w h) with
  | none => rw [hcg] at hc; simp at hc
  | some cg =>
    rw [hcg] at hc
    cases hq : f (pixel_to_projected g (w / 2) (h / 2)).1
        (pixel_to_projected g (w / 2) (h / 2)).2 with
    | none => rw [hq] at hc; simp at hc
    | some q =>
      rw [hq] at hc
      simp only [Option.some.injEq] at hc
      rw [← hc]

/-- C10 witness: with the identity transform on geotransform `(0,1,0,0,0,1)`
and a 2×2 raster, the reported center `(1,1)` is the transform of the
affine image of the pixel centroid `(1,1)`. -/
theorem reprojection_center_centroid_witness :
    (fun (x y : ℚ) => some (x, y)) (pixel_to_projected ⟨0, 1, 0, 0, 0, 1⟩ (2 / 2) (2 / 2)).1
      (pixel_to_projected ⟨0, 1, 0, 0, 0, 1⟩ (2 / 2) (2 / 2)).2 =
      some ((⟨1, 1⟩ : GeoCenter).longitude, (⟨1, 1⟩ : GeoCenter).latitude) := by
  have hc : (transform_projected_to_geographic (some fun x y => some (x, y))
      ⟨0, 1, 0, 0, 0, 1⟩ 2 2).geographic_center = some ⟨1, 1⟩ := by
    simp only [transform_projected_to_geographic, transform_points, corner_points,
      pixel_to_projected]
    norm_num [GeoCenter.mk.injEq]
  exact reprojection_center_centroid (fun x y => some (x, y)) ⟨0, 1, 0, 0, 0, 1⟩ 2 2 ⟨1, 1⟩ hc

/-! ### C5: constant arrays stretch to min_out -/

/-- C5: for every sample array all of whose samples are equal (including the
all-zero array) and every uint8-representable `min_out`, `gray_process`
returns an array of the same shape filled with `min_out`. -/
theorem gray_process_constant_min_out (l : List ℚ) (c t : ℚ) (maxo mino : ℤ)
    (hc : ∀ x ∈ l, x = c) (h0 : 0 ≤ mino) (h255 : mino ≤ 255) :
    gray_process l t maxo mino = l.map fun _ => mino := by
  have hguard : (!np_any l || np_allclose_first l) = true := by
    rcases l with _ | ⟨a, l'⟩
    · simp [np_any]
    · have hhead : (a :: l').headD 0 = c := by simpa using hc a (by simp)
      have hall : np_allclose_first (a :: l') = true := by
        simp only [np_allclose_first, List.all_eq_true]
        intro x hx
        rw [hhead, hc x hx, np_isclose, decide_eq_true_eq, sub_self, abs_zero]
        rw [np_atol, np_rtol]
        positivity
      simp [hall]
  have hmin : uint8_of_int mino = mino := uint8_of_int_eq mino h0 (by omega)
  simp [gray_process, hguard, hmin]

/-- C5 witness: the constant array `[7,7,7]` stretches to `[0,0,0]`. -/
theorem gray_process_constant_min_out_witness :
    gray_process [7, 7, 7] 1 255 0 = [0, 0, 0] := by
  have hc : ∀ x ∈ ([7, 7, 7] : List ℚ), x = 7 := by
    intro x hx
    simpa using hx
  have h := gray_process_constant_min_out [7, 7, 7] 7 1 255 0 hc (by norm_num) (by norm_num)
  simpa using h

/-! ### C4: degenerate percentile spread -/

/-- C4 counterexample: the array `[1, 1 + 10⁻⁹]` has non-constant values and
numerically indistinguishable 1%/99% percentiles, yet `gray_process` returns
the `min_out` fill (`[0,0]`), not the mid-gray `(max_out+min_out)//2 = 127`:
the nearly-constant array is already captured by the `np.allclose` guard. -/
theorem gray_process_allclose_constant_counterexample :
    ((1 : ℚ) ≠ 1 + 1 / 1000000000) ∧
    np_isclose (percentile [1, 1 + 1 / 1000000000] (100 - 1))
      (percentile [1, 1 + 1 / 1000000000] 1) = true ∧
    gray_process [1, 1 + 1 / 1000000000] 1 255 0 = [0, 0] ∧
    (0 : ℤ) ≠ Int.fdiv (255 + 0) 2 := by
  have hp1 : percentile [1, 1 + 1 / 1000000000] 1 = 1 + 1 / 100000000000 := by
    norm_num [percentile, List.insertionSort, List.orderedInsert]
  have hp99 : percentile [1, 1 + 1 / 1000000000] (100 - 1) = 1 + 99 / 100000000000 := by
    norm_num [percentile, List.insertionSort, List.orderedInsert]
  refine ⟨by norm_num, ?_, ?_, by decide⟩
  · rw [hp1, hp99, np_isclose, decide_eq_true_eq, np_atol, np_rtol]
    rw [abs_of_nonneg (by norm_num), abs_of_nonneg (by norm_num)]
    norm_num
  · have hguard : (!np_any [(1 : ℚ), 1 + 1 / 1000000000] ||
        np_allclose_first [(1 : ℚ), 1 + 1 / 1000000000]) = true := by
      have hall : np_allclose_first [(1 : ℚ), 1 + 1 / 1000000000] = true := by
        simp only [np_allclose_first, List.all_eq_true]
        intro x hx
        simp only [List.headD_cons]
        rcases (by simpa using hx : x = 1 ∨ x = 1 + 1 / 1000000000) with rfl | rfl <;>
          · rw [np_isclose, decide_eq_true_eq, np_atol, np_rtol]
            rw [abs_of_nonneg (by norm_num)]
            norm_num
      rw [hall, Bool.or_true]
    simp only [gray_process]
    rw [if_pos hguard]
    simp [uint8_of_int]

/-- C4 (amended): for every sample array that escapes the constant-array guard
(some sample nonzero and not all samples within `np.allclose` tolerance of the
first), if the upper and lower percentiles are within `np.isclose` tolerance
then `gray_process` returns an array filled with `(max_out+min_out)//2`
(Python floor division), for any uint8-representable mid value. -/
theorem gray_process_mid_fill (l : List ℚ) (t : ℚ) (maxo mino : ℤ)
    (hguard : (!np_any l || np_allclose_first l) = false)
    (hclose : np_isclose (percentile l (100 - t)) (percentile l t) = true)
    (h0 : 0 ≤ Int.fdiv (maxo + mino) 2) (h255 : Int.fdiv (maxo + mino) 2 ≤ 255) :
    gray_process l t maxo mino = l.map fun _ => Int.fdiv (maxo + mino) 2 := by
  have hm : uint8_of_int (Int.fdiv (maxo + mino) 2) = Int.fdiv (maxo + mino) 2 :=
    uint8_of_int_eq _ h0 (by omega)
  simp [gray_process, hguard, hclose, hm]

/-- C4 witness: the non-constant array `[0, 1000]` with `truncated_value = 50`
has equal 50%/50% percentiles and stretches to the mid-gray fill `[127,127]`. -/
theorem gray_process_mid_fill_witness :
    gray_process [0, 1000] 50 255 0 = [127, 127] := by
  have hguard : (!np_any [(0 : ℚ), 1000] || np_allclose_first [(0 : ℚ), 1000]) = false := by
    have hany : np_any [(0 : ℚ), 1000] = true := by
      simp [np_any]
    have hall : np_allclose_first [(0 : ℚ), 1000] = false := by
      simp only [np_allclose_first, List.all_eq_false]
      refine ⟨1000, by simp, ?_⟩
      simp only [List.headD_cons, np_isclose, np_atol, np_rtol, decide_eq_true_eq,
        sub_zero, abs_zero]
      rw [abs_of_nonneg (by norm_num : (0 : ℚ) ≤ 1000)]
      norm_num
    simp [hany, hall]
  have hp : percentile [(0 : ℚ), 1000] 50 = 500 := by
    norm_num [percentile, List.insertionSort, List.orderedInsert]
  have hclose : np_isclose (percentile [(0 : ℚ), 1000] (100 - 50))
      (percentile [(0 : ℚ), 1000] 50) = true := by
    have h50 : (100 : ℚ) - 50 = 50 := by norm_num
    rw [h50, hp, np_isclose, decide_eq_true_eq, sub_self, abs_zero, np_atol, np_rtol]
    positivity
  have h := gray_process_mid_fill [0, 1000] 50 255 0 hguard hclose (by decide) (by decide)
  exact h.trans (by decide)

/-! ### C6: output range, mapping formula and shape -/

/-- C6: for every input array and valid parameters (`0 ≤ min_out ≤ max_out ≤ 255`),
the output of `gray_process` has the same shape as the input, every element
lies in `[min_out, max_out]`, and on the non-degenerate path each value is the
linear map `(v-lo)/(hi-lo)*(max_out-min_out)+min_out` clamped by `np.clip` to
`[min_out, max_out]` and then truncated toward zero by the uint8 cast. -/
theorem gray_process_range_and_map (l : List ℚ) (t : ℚ) (maxo mino : ℤ)
    (h0 : 0 ≤ mino) (h1 : mino ≤ maxo) (h255 : maxo ≤ 255) :
    (gray_process l t maxo mino).length = l.length ∧
    (∀ v ∈ gray_process l t maxo mino, mino ≤ v ∧ v ≤ maxo) ∧
    ((!np_any l || np_allclose_first l) = false →
      np_isclose (percentile l (100 - t)) (percentile l t) = false →
      gray_process l t maxo mino = l.map fun v => uint8_of_int (rat_trunc (np_clip
        ((v - percentile l t) / (percentile l (100 - t) - percentile l t) *
          ((maxo : ℚ) - (mino : ℚ)) + (mino : ℚ)) (mino : ℚ) (maxo : ℚ)))) := by
  by_cases hg : (!np_any l || np_allclose_first l) = true
  · have hmin : uint8_of_int mino = mino := uint8_of_int_eq _ h0 (by omega)
    simp only [gray_process]
    rw [if_pos hg]
    refine ⟨by simp, ?_, ?_⟩
    · intro v hv
      simp only [List.mem_map] at hv
      obtain ⟨x, _, rfl⟩ := hv
      rw [hmin]
      exact ⟨le_refl _, h1⟩
    · intro hgf
      rw [hg] at hgf
      cases hgf
  · have hgf : (!np_any l || np_allclose_first l) = false := by
      simpa using hg
    by_cases hcl : np_isclose (percentile l (100 - t)) (percentile l t) = true
    · have hmlo : mino ≤ Int.fdiv (maxo + mino) 2 := by
        rw [Int.fdiv_eq_ediv _ (by norm_num)]
        omega
      have hmhi : Int.fdiv (maxo + mino) 2 ≤ maxo := by
        rw [Int.fdiv_eq_ediv _ (by norm_num)]
        omega
      have hm : uint8_of_int (Int.fdiv (maxo + mino) 2) = Int.fdiv (maxo + mino) 2 :=
        uint8_of_int_eq _ (by omega) (by omega)
      simp only [gray_process]
      rw [if_neg (by rw [hgf]; exact Bool.false_ne_true), if_pos hcl]
      refine ⟨by simp, ?_, ?_⟩
      · intro v hv
        simp only [List.mem_map] at hv
        obtain ⟨x, _, rfl⟩ := hv
        rw [hm]
        exact ⟨hmlo, hmhi⟩
      · intro _ hclf
        rw [hcl] at hclf
        cases hclf
    · have hclf : np_isclose (percentile l (100 - t)) (percentile l t) = false := by
        simpa using hcl
      simp only [gray_process]
      rw [if_neg (by rw [hgf]; exact Bool.false_ne_true),
        if_neg (by rw [hclf]; exact Bool.false_ne_true)]
      refine ⟨by simp, ?_, fun _ _ => rfl⟩
      intro v hv
      simp only [List.mem_map] at hv
      obtain ⟨x, _, rfl⟩ := hv
      have hmm : (mino : ℚ) ≤ (maxo : ℚ) := by exact_mod_cast h1
      have hylo : (mino : ℚ) ≤ np_clip
          ((x - percentile l t) / (percentile l (100 - t) - percentile l t) *
            ((maxo : ℚ) - (mino : ℚ)) + (mino : ℚ)) (mino : ℚ) (maxo : ℚ) :=
        le_min (le_max_right _ _) hmm
      have hyhi : np_clip
          ((x - percentile l t) / (percentile l (100 - t) - percentile l t) *
            ((maxo : ℚ) - (mino : ℚ)) + (mino : ℚ)) (mino : ℚ) (maxo : ℚ) ≤ (maxo : ℚ) :=
        min_le_right _ _
      have hy0 : (0 : ℚ) ≤ np_clip
          ((x - percentile l t) / (percentile l (100 - t) - percentile l t) *
            ((maxo : ℚ) - (mino : ℚ)) + (mino : ℚ)) (mino : ℚ) (maxo : ℚ) :=
        le_trans (by exact_mod_cast h0) hylo
      rw [rat_trunc, if_pos hy0, uint8_of_int_eq _ (le_trans h0 (Int.le_floor.mpr hylo))
        (by
          have hfl : ⌊np_clip
              ((x - percentile l t) / (percentile l (100 - t) - percentile l t) *
                ((maxo : ℚ) - (mino : ℚ)) + (mino : ℚ)) (mino : ℚ) (maxo : ℚ)⌋ ≤ maxo := by
            have := Int.floor_le_floor hyhi
            rwa [Int.floor_intCast] at this
          omega)]
      constructor
      · exact Int.le_floor.mpr hylo
      · have := Int.floor_le_floor hyhi
        rwa [Int.floor_intCast] at this

/-- C6 witness: on `[7,7,7]` with the default parameters the output has the
input's shape and its first element is within `[0, 255]`. -/
theorem gray_process_range_and_map_witness :
    (gray_process [7, 7, 7] 1 255 0).length = 3 ∧
    (∀ v ∈ gray_process [7, 7, 7] 1 255 0, (0 : ℤ) ≤ v ∧ v ≤ 255) :=
  ⟨(gray_process_range_and_map [7, 7, 7] 1 255 0 (by norm_num) (by norm_num) (by norm_num)).1,
   (gray_process_range_and_map [7, 7, 7] 1 255 0 (by norm_num) (by norm_num) (by norm_num)).2.1⟩

/-! ### C7: linear-unit path of the area estimator -/

/-- C7: when a geotransform and projection are present and the CRS linear-unit
lookup returns a conversion factor, the estimator computes
`x_span_km = |width*pixelWidth| * unitToMeter / 1000`,
`y_span_km = |height*pixelHeight| * unitToMeter / 1000` and
`area_km2 = |width*pixelWidth| * |height*pixelHeight| * unitToMeter² / 10⁶`;
in particular, georeference `(500000,10,0,4000000,0,-10)` on a `100×100`
raster in metres yields `1.0` km, `1.0` km and `1.0` km². -/
theorem calculate_area_linear_units (cosDeg : ℚ → ℚ) (g : GeoTransform)
    (uname : String) (u2m : ℚ) (gb : Option GeoBounds) (w h : ℚ) :
    ((calculate_projected_distance_and_area cosDeg (some g) true (some (uname, u2m)) gb w h).x_span_km =
        some (|w * g.pixelWidth| * u2m / 1000) ∧
      (calculate_projected_distance_and_area cosDeg (some g) true (some (uname, u2m)) gb w h).y_span_km =
        some (|h * g.pixelHeight| * u2m / 1000) ∧
      (calculate_projected_distance_and_area cosDeg (some g) true (some (uname, u2m)) gb w h).area_km2 =
        some (|w * g.pixelWidth| * |h * g.pixelHeight| * u2m * u2m / 1000000)) ∧
    ((calculate_projected_distance_and_area cosDeg (some ⟨500000, 10, 0, 4000000, 0, -10⟩)
        true (some (uname, 1)) gb 100 100).x_span_km = some 1 ∧
      (calculate_projected_distance_and_area cosDeg (some ⟨500000, 10, 0, 4000000, 0, -10⟩)
        true (some (uname, 1)) gb 100 100).y_span_km = some 1 ∧
      (calculate_projected_distance_and_area cosDeg (some ⟨500000, 10, 0, 4000000, 0, -10⟩)
        true (some (uname, 1)) gb 100 100).area_km2 = some 1) := by
  have hx : g.originX + w * g.pixelWidth - g.originX = w * g.pixelWidth := by ring
  have hy : g.originY - (g.originY + h * g.pixelHeight) = -(h * g.pixelHeight) := by ring
  refine ⟨⟨?_, ?_, ?_⟩, ?_, ?_, ?_⟩ <;>
    simp only [calculate_projected_distance_and_area, hx, hy, abs_neg]
  · rw [show (500000 : ℚ) + 100 * 10 - 500000 = 1000 by norm_num,
      abs_of_nonneg (by norm_num : (0 : ℚ) ≤ 1000)]
    norm_num
  · rw [show (4000000 : ℚ) - (4000000 + 100 * -10) = 1000 by norm_num,
      abs_of_nonneg (by norm_num : (0 : ℚ) ≤ 1000)]
    norm_num
  · rw [show (500000 : ℚ) + 100 * 10 - 500000 = 1000 by norm_num,
      show (4000000 : ℚ) - (4000000 + 100 * -10) = 1000 by norm_num,
      abs_of_nonneg (by norm_num : (0 : ℚ) ≤ 1000)]
    norm_num

/-! ### C8: geographic fallback and fully-unknown path of the estimator -/

/-- C8: when the CRS linear-unit lookup raises while geographic bounds are
available (with `west ≤ east`, `south ≤ north` as reprojection guarantees),
the estimator falls back to `x_span_km = (east-west) * 111 * cos(radians(centerLat))`,
`y_span_km = (north-south) * 111`, `area_km2 = x_span_km * y_span_km`; and when
neither a geotransform nor a projection is present, every span/area output is
`None` with the unknown-unit marker. -/
theorem calculate_area_fallback_and_unknown (cosDeg : ℚ → ℚ) (g : GeoTransform)
    (b : GeoBounds) (w h : ℚ) (hwe : b.west ≤ b.east) (hsn : b.south ≤ b.north) :
    ((calculate_projected_distance_and_area cosDeg (some g) true none (some b) w h).x_span_km =
        some ((b.east - b.west) * 111 * cosDeg ((b.north + b.south) / 2)) ∧
      (calculate_projected_distance_and_area cosDeg (some g) true none (some b) w h).y_span_km =
        some ((b.north - b.south) * 111) ∧
      (calculate_projected_distance_and_area cosDeg (some g) true none (some b) w h).area_km2 =
        some ((b.east - b.west) * 111 * cosDeg ((b.north + b.south) / 2) *
          ((b.north - b.south) * 111))) ∧
    (∀ (ul : Option (String × ℚ)) (gb : Option GeoBounds),
      (calculate_projected_distance_and_area cosDeg none false ul gb w h).x_span_km = none ∧
      (calculate_projected_distance_and_area cosDeg none false ul gb w h).y_span_km = none ∧
      (calculate_projected_distance_and_area cosDeg none false ul gb w h).area_km2 = none ∧
      (calculate_projected_distance_and_area cosDeg none false ul gb w h).unit_name = "未知单位") := by
  have habe : |b.east - b.west| = b.east - b.west := abs_of_nonneg (by linarith)
  have habn : |b.north - b.south| = b.north - b.south := abs_of_nonneg (by linarith)
  refine ⟨⟨?_, ?_, ?_⟩, ?_⟩
  · simp only [calculate_projected_distance_and_area, habe]
  · simp only [calculate_projected_distance_and_area, habn]
  · simp only [calculate_projected_distance_and_area, habe, habn]
  · intro ul gb
    exact ⟨rfl, rfl, rfl, rfl⟩

/-- C8 witness: with the linear-unit lookup raising and bounds
`{west:-1, east:1, south:-1, north:1}` (center latitude 0, where the injected
cosine is 1), the fallback yields `x_span_km = y_span_km = 222`. -/
theorem calculate_area_fallback_witness :
    (calculate_projected_distance_and_area (fun _ => 1) (some ⟨0, 1, 0, 0, 0, 1⟩) true none
        (some ⟨-1, 1, -1, 1⟩) 1 1).x_span_km = some 222 ∧
    (calculate_projected_distance_and_area (fun _ => 1) (some ⟨0, 1, 0, 0, 0, 1⟩) true none
        (some ⟨-1, 1, -1, 1⟩) 1 1).y_span_km = some 222 := by
  have h := calculate_area_fallback_and_unknown (fun _ => 1) ⟨0, 1, 0, 0, 0, 1⟩
    ⟨-1, 1, -1, 1⟩ 1 1 (by norm_num) (by norm_num)
  refine ⟨h.1.1.trans ?_, h.1.2.1.trans ?_⟩ <;> norm_num
